import Mathlib

/-!
Verification of the braille-display detection module (`source/bdDetect.py`).

The module keeps a process-wide registry `_driverDevices` mapping a driver
name to a `defaultdict(set)` from device-type keys (`"hid"`, `"serial"`,
`"custom"`, `"bluetooth"`) to either a set of USB id strings or (under the
`"bluetooth"` key) a match predicate.  Matching functions cross-reference
enumerated hardware port records against this registry, and a background
`Detector` runs scan passes (USB first, then Bluetooth with a candidate
cache and a poll timer).

Embedding conventions:
* Python dicts are embedded as association lists (`assocFind` / `assocSet`);
  the iteration order of a dict is the list order, a deterministic stand-in
  for CPython's fixed-but-unspecified order.
* Python sets of strings are embedded as lists observed through membership;
  `set.update` is a duplicate-avoiding append.
* A port record (`dict` from `hwPortUtils`) is an association list of
  string keys to string values; `port["k"]` is a fallible lookup raising
  `PyErr.keyError` when the key is absent.
* Generators are embedded by their pull sequence: a `List (Except PyErr α)`
  in which every element before a (single, terminal) `.error` is a yielded
  value.  Fully consuming a generator (`list(...)` in Python) is `seqRun`,
  which returns the first raised error, discarding earlier yields, exactly
  as `list()` does.
* The stop event (`threading.Event`) is an oracle `stopAt : Nat → Bool`
  giving the value returned by the k-th `isSet()` call of a pass.
-/

/-- Python exception classes that the modelled code can raise:
`KeyError` from a missing dict key, and `LookupError` (the superclass
documented by the query functions, raised as the `KeyError` of the
`_driverDevices[driver]` lookup) for an unregistered driver. -/
inductive PyErr where
  | keyError
  | lookupError
deriving DecidableEq, Repr

/-- A port record returned by `hwPortUtils` enumeration: a Python dict
from string keys to string values. -/
abbrev PortInfo := List (String × String)

/-- First-match association-list lookup, the embedding of `d[k]`
(as an `Option`) for Python dicts. -/
def assocFind {α : Type} (l : List (String × α)) (k : String) : Option α :=
  match l with
  | [] => none
  | (k', v) :: rest => if k' == k then some v else assocFind rest k

/-- Association-list update, the embedding of `d[k] = v`: replaces the
binding when the key is present, otherwise appends it. -/
def assocSet {α : Type} (l : List (String × α)) (k : String) (v : α) :
    List (String × α) :=
  match l with
  | [] => [(k, v)]
  | (k', v') :: rest =>
    if k' == k then (k, v) :: rest else (k', v') :: assocSet rest k v

/-- `"k" in d` for a Python dict. -/
def hasKey {α : Type} (l : List (String × α)) (k : String) : Bool :=
  (assocFind l k).isSome

/-- `d["k"]`: raises `KeyError` when the key is absent. -/
def getKey (p : PortInfo) (k : String) : Except PyErr String :=
  match assocFind p k with
  | some v => .ok v
  | none => .error .keyError

/-- `DeviceMatch = namedtuple("DeviceMatch", ("type", "id", "port", "deviceInfo"))`. -/
structure DeviceMatch where
  type : String
  id : String
  port : String
  deviceInfo : PortInfo
deriving DecidableEq, Repr

/-- `KEY_HID = "hid"`. -/
def KEY_HID : String := "hid"
/-- `KEY_SERIAL = "serial"`. -/
def KEY_SERIAL : String := "serial"
/-- `KEY_CUSTOM = "custom"`. -/
def KEY_CUSTOM : String := "custom"
/-- `KEY_BLUETOOTH = "bluetooth"`. -/
def KEY_BLUETOOTH : String := "bluetooth"

/-- `POLL_INTERVAL = 5000` (ms). -/
def POLL_INTERVAL : Nat := 5000

/-- A value stored in a driver's per-type `defaultdict(set)`: either a set
of USB id strings (from `addUsbDevices`, or the empty set manufactured by a
`defaultdict` lookup) or a Bluetooth match function (stored under
`KEY_BLUETOOTH` by `addBluetoothDevices`). -/
inductive DevValue where
  | ids (s : List String)
  | fn (f : DeviceMatch → Bool)

/-- A driver's entry in `_driverDevices`: the `defaultdict(set)` from
device-type key to `DevValue`. -/
abbrev DriverDevs := List (String × DevValue)

/-- The registry `_driverDevices`: a dict from driver name to its devices. -/
abbrev Registry := List (String × DriverDevs)

/-- `devs[k]` on a `defaultdict(set)`: returns the stored value, or inserts
and returns an empty set when the key is absent (a genuine mutation of the
dict).  Returns the value together with the possibly-updated dict. -/
def ddGet (devs : DriverDevs) (k : String) : DevValue × DriverDevs :=
  match assocFind devs k with
  | some v => (v, devs)
  | none => (.ids [], devs ++ [(k, .ids [])])

/-- `match.id in ids` for a stored `DevValue`.  In the source this test is
reached only behind `match.type == type`, and values under non-`"bluetooth"`
keys are always sets, so the `.fn` branch (where Python's `in` would raise
`TypeError` on a function) is unreachable for records produced by the USB
chain; it is mapped to `false`. -/
def idMem (i : String) : DevValue → Bool
  | .ids s => s.contains i
  | .fn _ => false

/-- The body of `_getDriver` + `addUsbDevices`: `devs = _getDriver(driver)`
(lookup-or-insert of an empty `defaultdict`), `driverUsb = devs[type]`
(defaultdict lookup), `driverUsb.update(ids)` (set union in place).
The union is embedded as duplicate-avoiding append.  A `.fn` value under
`type` (on which Python's `set.update` would raise `AttributeError`) cannot
arise from this module's registration calls, which store functions only
under `KEY_BLUETOOTH`; it is treated as the empty set. -/
def addUsbDevices (reg : Registry) (driver ty : String) (ids : List String) :
    Registry :=
  let devs := (assocFind reg driver).getD []
  let cur :=
    match assocFind devs ty with
    | some (.ids s) => s
    | some (.fn _) => []
    | none => []
  let merged := cur ++ ids.filter (fun i => !cur.contains i)
  assocSet reg driver (assocSet devs ty (.ids merged))

/-- `addBluetoothDevices`: `devs = _getDriver(driver)`,
`devs[KEY_BLUETOOTH] = matchFunc` (plain assignment, overwriting). -/
def addBluetoothDevices (reg : Registry) (driver : String)
    (f : DeviceMatch → Bool) : Registry :=
  let devs := (assocFind reg driver).getD []
  assocSet reg driver (assocSet devs KEY_BLUETOOTH (.fn f))

/-- `DeviceMatch(KEY_CUSTOM, port["usbID"], port["devicePath"], port)`:
argument evaluation is left to right, so a missing `"usbID"` raises before
a missing `"devicePath"`. -/
def mkCustomMatch (p : PortInfo) : Except PyErr DeviceMatch := do
  let i ← getKey p "usbID"
  let d ← getKey p "devicePath"
  pure ⟨KEY_CUSTOM, i, d, p⟩

/-- `DeviceMatch(KEY_HID, port["usbID"], port["devicePath"], port)`
(built only for HID ports passing the `"usbID" in port` filter). -/
def mkHidMatch (p : PortInfo) : Except PyErr DeviceMatch := do
  let i ← getKey p "usbID"
  let d ← getKey p "devicePath"
  pure ⟨KEY_HID, i, d, p⟩

/-- `DeviceMatch(KEY_SERIAL, port["usbID"], port["port"], port)`
(built only for com ports passing the `"usbID" in port` filter). -/
def mkSerialMatch (p : PortInfo) : Except PyErr DeviceMatch := do
  let i ← getKey p "usbID"
  let d ← getKey p "port"
  pure ⟨KEY_SERIAL, i, d, p⟩

/-- The `usbDevs = itertools.chain(...)` of the USB matching functions, as
the pull sequence of the chained generator expressions: first the custom
records for every `listUsbDevices()` port (no `"usbID"` presence filter —
a port lacking the key yields a `KeyError` element), then the HID records
for ports with `"usbID"`, then the serial records for com ports with
`"usbID"`. -/
def usbChain (u h c : List PortInfo) : List (Except PyErr DeviceMatch) :=
  u.map mkCustomMatch
    ++ (h.filter (fun p => hasKey p "usbID")).map mkHidMatch
    ++ (c.filter (fun p => hasKey p "usbID")).map mkSerialMatch

/-- Expands one pull of an underlying fallible sequence into the pulls of a
generator that yields `f m` for each underlying value `m`: an error element
terminates the resulting sequence (the exception propagates on that pull). -/
def seqOfChain {α : Type} (f : DeviceMatch → List α) :
    List (Except PyErr DeviceMatch) → List (Except PyErr α)
  | [] => []
  | .error e :: _ => [.error e]
  | .ok m :: rest => (f m).map .ok ++ seqOfChain f rest

/-- Full consumption of a generator pull sequence, i.e. `list(gen)`:
the first raised error escapes and the partial list is discarded. -/
def seqRun {α : Type} : List (Except PyErr α) → Except PyErr (List α)
  | [] => .ok []
  | .error e :: _ => .error e
  | .ok a :: rest =>
    match seqRun rest with
    | .error e => .error e
    | .ok l => .ok (a :: l)

/-- `next(gen, default)`: the first pull of a generator sequence, either an
error, the first yielded value, or exhaustion. -/
def seqFirst {α : Type} : List (Except PyErr α) → Except PyErr (Option α)
  | [] => .ok none
  | .error e :: _ => .error e
  | .ok a :: _ => .ok (some a)

/-- The inner two loops of `getDriversForConnectedUsbDevices` for one
record: `for driver, devs in _driverDevices.iteritems(): for type, ids in
devs.iteritems(): if match.type == type and match.id in ids: yield driver,
match`. -/
def usbPairsFor (reg : Registry) (m : DeviceMatch) :
    List (String × DeviceMatch) :=
  reg.flatMap fun dr =>
    dr.2.filterMap fun tv =>
      if m.type == tv.1 && idMem m.id tv.2 then some (dr.1, m) else none

/-- Pull sequence of the generator `getDriversForConnectedUsbDevices()`. -/
def getDriversForConnectedUsbDevicesSeq (reg : Registry)
    (u h c : List PortInfo) : List (Except PyErr (String × DeviceMatch)) :=
  seqOfChain (usbPairsFor reg) (usbChain u h c)

/-- `list(getDriversForConnectedUsbDevices())`: the fully consumed pairs. -/
def getDriversForConnectedUsbDevices (reg : Registry)
    (u h c : List PortInfo) : Except PyErr (List (String × DeviceMatch)) :=
  seqRun (getDriversForConnectedUsbDevicesSeq reg u h c)

/-- The inner loop of `getConnectedUsbDevicesForDriver` for one record:
`for type, ids in devs.iteritems(): if match.type == type and match.id in
ids: yield match`. -/
def usbYieldsForDriver (devs : DriverDevs) (m : DeviceMatch) :
    List DeviceMatch :=
  devs.filterMap fun tv =>
    if m.type == tv.1 && idMem m.id tv.2 then some m else none

/-- Pull sequence of the generator `getConnectedUsbDevicesForDriver(driver)`:
the body first evaluates `devs = _driverDevices[driver]`, raising
`LookupError` on the first pull when the driver is unregistered, then
walks the USB chain. -/
def getConnectedUsbDevicesForDriverSeq (reg : Registry) (driver : String)
    (u h c : List PortInfo) : List (Except PyErr DeviceMatch) :=
  match assocFind reg driver with
  | none => [.error .lookupError]
  | some devs => seqOfChain (usbYieldsForDriver devs) (usbChain u h c)

/-- `list(getConnectedUsbDevicesForDriver(driver))`. -/
def getConnectedUsbDevicesForDriver (reg : Registry) (driver : String)
    (u h c : List PortInfo) : Except PyErr (List DeviceMatch) :=
  seqRun (getConnectedUsbDevicesForDriverSeq reg driver u h c)

/-- `btDevs = [DeviceMatch(KEY_SERIAL, port["bluetoothName"], port["port"],
port) for port in hwPortUtils.listComPorts() if "bluetoothName" in port]` —
an eager list comprehension. -/
def listBtMatches (c : List PortInfo) : Except PyErr (List DeviceMatch) :=
  (c.filter (fun p => hasKey p "bluetoothName")).mapM fun p => do
    let n ← getKey p "bluetoothName"
    let pt ← getKey p "port"
    pure (⟨KEY_SERIAL, n, pt, p⟩ : DeviceMatch)

/-- The inner driver loop of `getDriversForPossibleBluetoothDevices` for one
record: `for driver, devs in _driverDevices.iteritems(): matchFunc =
devs[KEY_BLUETOOTH]; if not callable(matchFunc): continue; if
matchFunc(match): yield driver, match`.  The `devs[KEY_BLUETOOTH]` lookup on
the `defaultdict` inserts an empty set when the key is absent, so the
(possibly updated) registry is returned alongside the yields. -/
def btMatchDrivers : Registry → DeviceMatch →
    List (String × DeviceMatch) × Registry
  | [], _ => ([], [])
  | (driver, devs) :: rest, m =>
    let (v, devs2) := ddGet devs KEY_BLUETOOTH
    let (tl, rest2) := btMatchDrivers rest m
    match v with
    | .ids _ => (tl, (driver, devs2) :: rest2)
    | .fn f =>
      (if f m then (driver, m) :: tl else tl, (driver, devs2) :: rest2)

/-- The outer loop `for match in btDevs` of
`getDriversForPossibleBluetoothDevices`, threading the registry through the
`defaultdict` side effects of the inner loop. -/
def btMatchAllGo : Registry → List DeviceMatch →
    List (String × DeviceMatch) × Registry
  | reg, [] => ([], reg)
  | reg, m :: rest =>
    let (ys, reg2) := btMatchDrivers reg m
    let (tl, reg3) := btMatchAllGo reg2 rest
    (ys ++ tl, reg3)

/-- `list(getDriversForPossibleBluetoothDevices())` together with the
registry after the `defaultdict` side effects.  The eager `btDevs` list
comprehension runs on the first pull; a `KeyError` there escapes before any
driver lookup. -/
def getDriversForPossibleBluetoothDevices (reg : Registry)
    (c : List PortInfo) :
    Except PyErr (List (String × DeviceMatch)) × Registry :=
  match listBtMatches c with
  | .error e => (.error e, reg)
  | .ok btDevs =>
    let (ys, reg2) := btMatchAllGo reg btDevs
    (.ok ys, reg2)

/-- `list(getPossibleBluetoothDevicesForDriver(driver))` together with the
registry after the side effects of its first pull: the body evaluates
`matchFunc = _driverDevices[driver][KEY_BLUETOOTH]` (raising `LookupError`
for an unregistered driver, and inserting an empty set into the driver's
`defaultdict` when no Bluetooth entry exists), returns immediately when the
stored value is not callable, and otherwise filters the Bluetooth records
through the predicate. -/
def getPossibleBluetoothDevicesForDriver (reg : Registry) (driver : String)
    (c : List PortInfo) : Except PyErr (List DeviceMatch) × Registry :=
  match assocFind reg driver with
  | none => (.error .lookupError, reg)
  | some devs =>
    let (v, devs2) := ddGet devs KEY_BLUETOOTH
    let reg2 := assocSet reg driver devs2
    match v with
    | .ids _ => (.ok [], reg2)
    | .fn f =>
      match listBtMatches c with
      | .error e => (.error e, reg2)
      | .ok btDevs => (.ok (btDevs.filter f), reg2)

/-- `arePossibleDevicesForDriver`: `bool(next(itertools.chain(
getConnectedUsbDevicesForDriver(driver),
getPossibleBluetoothDevicesForDriver(driver)), None))`.  `next` pulls at
most one element: the USB generator runs up to its first yield; only when
it is exhausted without yielding is the Bluetooth generator pulled (which
is when its registry side effect happens). -/
def arePossibleDevicesForDriver (reg : Registry) (driver : String)
    (u h c : List PortInfo) : Except PyErr Bool × Registry :=
  match seqFirst (getConnectedUsbDevicesForDriverSeq reg driver u h c) with
  | .error e => (.error e, reg)
  | .ok (some _) => (.ok true, reg)
  | .ok none =>
    match getPossibleBluetoothDevicesForDriver reg driver c with
    | (.error e, reg2) => (.error e, reg2)
    | (.ok l, reg2) => (.ok (!l.isEmpty), reg2)

/-- The exit condition of the USB loop of `_bgScan`: the stop event was
observed, an activation returned true (`return`), an exception escaped the
generator pull, or the candidates were exhausted. -/
inductive UsbExit where
  | stopped
  | succeeded
  | raised (e : PyErr)
  | exhausted
deriving DecidableEq, Repr

/-- The USB loop of `_bgScan`: `for driver, match in
getDriversForConnectedUsbDevices(): if stopEvent.isSet(): return; if
braille.handler.setDisplayByName(driver, detected=match): return`.
Each iteration pulls the generator (an error element raises), then checks
the stop event (consuming one oracle index `k`), then attempts activation.
Returns the attempted candidates in order, the next oracle index, and the
exit condition. -/
def usbLoop (activate : String → DeviceMatch → Bool) (stopAt : Nat → Bool) :
    Nat → List (Except PyErr (String × DeviceMatch)) →
    List (String × DeviceMatch) × Nat × UsbExit
  | k, [] => ([], k, .exhausted)
  | k, .error e :: _ => ([], k, .raised e)
  | k, .ok cand :: rest =>
    if stopAt k then ([], k + 1, .stopped)
    else if activate cand.1 cand.2 then ([cand], k + 1, .succeeded)
    else
      let (as, k', ex) := usbLoop activate stopAt (k + 1) rest
      (cand :: as, k', ex)

/-- The exit condition of the Bluetooth candidate loop of `_bgScan`:
stop observed (`return`), activation success (`break`), or exhaustion. -/
inductive BtExit where
  | stopped
  | broke
  | exhausted
deriving DecidableEq, Repr

/-- The Bluetooth candidate loop of `_bgScan`: `for driver, match in
btComs: if stopEvent.isSet(): return; if btComsCache is not btComs:
btComsCache.append((driver, match)); if
braille.handler.setDisplayByName(driver, detected=match): break`.
Returns the attempted candidates in order (which, in the fresh branch,
coincide with the appends to `btComsCache`: a candidate is appended exactly
when it is about to be attempted), the next oracle index, and the exit
condition. -/
def btLoop (activate : String → DeviceMatch → Bool) (stopAt : Nat → Bool) :
    Nat → List (String × DeviceMatch) →
    List (String × DeviceMatch) × Nat × BtExit
  | k, [] => ([], k, .exhausted)
  | k, cand :: rest =>
    if stopAt k then ([], k + 1, .stopped)
    else if activate cand.1 cand.2 then ([cand], k + 1, .broke)
    else
      let (as, k', ex) := btLoop activate stopAt (k + 1) rest
      (cand :: as, k', ex)

/-- Observable outcome of one `_bgScan` pass.  `btComs` is `self._btComs`
after the pass; `timerArmed` records whether `_startBgScan(bluetooth=True,
callAfter=POLL_INTERVAL)` was invoked at the end; the `usbAttempts` /
`btAttempts` lists record the `setDisplayByName` calls in order;
`btEnumerated` records whether `getDriversForPossibleBluetoothDevices` was
called; `usbSucceeded` / `btSucceeded` record whether an activation
returned true on the respective channel; `btCompleted` records that control
reached past the post-loop stop check of the Bluetooth branch; `raised` is
an exception escaping the pass. -/
structure ScanOut where
  btComs : Option (List (String × DeviceMatch))
  timerArmed : Bool
  usbAttempts : List (String × DeviceMatch)
  btAttempts : List (String × DeviceMatch)
  btEnumerated : Bool
  usbSucceeded : Bool
  btSucceeded : Bool
  btCompleted : Bool
  raised : Option PyErr
deriving DecidableEq, Repr

/-- The Bluetooth section of `_bgScan` (`if bluetooth: ...`), entered with
the oracle index `k` reached by the USB section and the USB attempts made
so far.  Follows the source: pre-loop stop check; fresh branch
(`self._btComs is None`) materialises `list(getDriversForPossibleBluetooth
Devices())` and accumulates `btComsCache` from `[]`, cached branch reuses
`self._btComs` with `btComsCache is btComs`; after the loop a further stop
check, then `self._btComs = btComsCache` only in the fresh branch, then
`if btComsCache: self._startBgScan(bluetooth=True, callAfter=POLL_INTERVAL)`. -/
def bgScanBt (reg : Registry) (comP : List PortInfo) (btFlag : Bool)
    (btComs0 : Option (List (String × DeviceMatch)))
    (activate : String → DeviceMatch → Bool) (stopAt : Nat → Bool)
    (k : Nat) (usbAtts : List (String × DeviceMatch)) : ScanOut :=
  let base : ScanOut :=
    { btComs := btComs0, timerArmed := false, usbAttempts := usbAtts,
      btAttempts := [], btEnumerated := false, usbSucceeded := false,
      btSucceeded := false, btCompleted := false, raised := none }
  if !btFlag then base
  else if stopAt k then base
  else
    match btComs0 with
    | none =>
      match (getDriversForPossibleBluetoothDevices reg comP).1 with
      | .error e => { base with btEnumerated := true, raised := some e }
      | .ok btComs =>
        let (as, k', ex) := btLoop activate stopAt (k + 1) btComs
        match ex with
        | .stopped => { base with btEnumerated := true, btAttempts := as }
        | .broke =>
          if stopAt k' then { base with btEnumerated := true, btAttempts := as }
          else
            { base with
              btEnumerated := true, btAttempts := as,
              btSucceeded := true, btComs := some as, btCompleted := true,
              timerArmed := !as.isEmpty }
        | .exhausted =>
          if stopAt k' then { base with btEnumerated := true, btAttempts := as }
          else
            { base with
              btEnumerated := true, btAttempts := as,
              btComs := some as, btCompleted := true,
              timerArmed := !as.isEmpty }
    | some l =>
      let (as, k', ex) := btLoop activate stopAt (k + 1) l
      match ex with
      | .stopped => { base with btAttempts := as }
      | .broke =>
        if stopAt k' then { base with btAttempts := as }
        else
          { base with
            btAttempts := as, btSucceeded := true,
            btCompleted := true, timerArmed := !l.isEmpty }
      | .exhausted =>
        if stopAt k' then { base with btAttempts := as }
        else
          { base with
            btAttempts := as, btCompleted := true,
            timerArmed := !l.isEmpty }

/-- One `_bgScan` pass.  `usbFlag` / `btFlag` are the cached `_detectUsb` /
`_detectBluetooth`, `btComs0` is `self._btComs` on entry, `stopAt` the stop
event oracle (index 0 is the first `isSet()` call of the pass).  The USB
section: `if usb: if stopEvent.isSet(): return; for driver, match in
getDriversForConnectedUsbDevices(): ...` with first-success `return`
ending the whole pass. -/
def bgScan (reg : Registry) (usbP hidP comP : List PortInfo)
    (usbFlag btFlag : Bool)
    (btComs0 : Option (List (String × DeviceMatch)))
    (activate : String → DeviceMatch → Bool) (stopAt : Nat → Bool) :
    ScanOut :=
  let base : ScanOut :=
    { btComs := btComs0, timerArmed := false, usbAttempts := [],
      btAttempts := [], btEnumerated := false, usbSucceeded := false,
      btSucceeded := false, btCompleted := false, raised := none }
  if usbFlag then
    if stopAt 0 then base
    else
      let seq := getDriversForConnectedUsbDevicesSeq reg usbP hidP comP
      let (as, k', ex) := usbLoop activate stopAt 1 seq
      match ex with
      | .stopped => { base with usbAttempts := as }
      | .raised e => { base with usbAttempts := as, raised := some e }
      | .succeeded => { base with usbAttempts := as, usbSucceeded := true }
      | .exhausted => bgScanBt reg comP btFlag btComs0 activate stopAt k' as
  else
    bgScanBt reg comP btFlag btComs0 activate stopAt 0 []

/-- The `Detector` attributes relevant to the cache and pass flags:
`_btComs`, `_detectUsb`, `_detectBluetooth`. -/
structure DetectorSt where
  btComs : Option (List (String × DeviceMatch))
  detectUsb : Bool
  detectBluetooth : Bool
deriving Repr

/-- `Detector.rescan`: `self._stopBgScan(); self._btComs = None;
self._startBgScan(usb=True, bluetooth=True)` — the cache is reset to the
not-yet-computed state and both channels are requested for the next pass. -/
def DetectorSt.rescan (_d : DetectorSt) : DetectorSt :=
  { btComs := none, detectUsb := true, detectBluetooth := true }

/-- A stored value is an id set (not a Bluetooth match function). -/
def DevValue.isIds : DevValue → Bool
  | .ids _ => true
  | .fn _ => false

/-- Well-formedness of a driver's device dict, as the registration API
maintains it: keys are distinct (it is a dict) and match functions are
stored only under `KEY_BLUETOOTH`. -/
def wfDevs (devs : DriverDevs) : Prop :=
  (devs.map Prod.fst).Nodup ∧
    ∀ tv ∈ devs, tv.1 ≠ KEY_BLUETOOTH → tv.2.isIds = true

/-- Well-formedness of the registry: driver names are distinct and every
driver's dict is well formed. -/
def wfRegistry (reg : Registry) : Prop :=
  (reg.map Prod.fst).Nodup ∧ ∀ dr ∈ reg, wfDevs dr.2

instance (devs : DriverDevs) : Decidable (wfDevs devs) := by
  unfold wfDevs; infer_instance

instance (reg : Registry) : Decidable (wfRegistry reg) := by
  unfold wfRegistry; infer_instance

/-- The registry test applied by the USB matching loops to one record `m`
against one driver's dict: some entry `(type, ids)` satisfies
`m.type == type and m.id in ids`. -/
def devsMatch (devs : DriverDevs) (m : DeviceMatch) : Bool :=
  devs.any fun tv => m.type == tv.1 && idMem m.id tv.2

theorem assocFind_assocSet_self {α : Type} (l : List (String × α))
    (k : String) (v : α) : assocFind (assocSet l k v) k = some v := by
  induction l with
  | nil => simp [assocSet, assocFind]
  | cons hd tl ih =>
    by_cases hk : hd.1 = k
    · simp [assocSet, assocFind, hk]
    · simp only [assocSet, assocFind]
      rw [if_neg (by simpa using hk)]
      simp only [assocFind]
      rw [if_neg (by simpa using hk)]
      exact ih

theorem assocFind_assocSet_ne {α : Type} (l : List (String × α))
    (k k' : String) (v : α) (hk : k' ≠ k) :
    assocFind (assocSet l k v) k' = assocFind l k' := by
  induction l with
  | nil =>
    simp only [assocSet, assocFind]
    rw [if_neg (by simpa using Ne.symm hk)]
  | cons hd tl ih =>
    by_cases h1 : hd.1 = k
    · subst h1
      simp only [assocSet, beq_self_eq_true, if_true, assocFind]
      rw [if_neg (by simpa using fun h => hk h.symm),
        if_neg (by simpa using fun h => hk h.symm)]
    · simp only [assocSet, assocFind]
      rw [if_neg (by simpa using h1)]
      simp only [assocFind]
      by_cases h2 : hd.1 = k'
      · simp [h2]
      · rw [if_neg (by simpa using h2), if_neg (by simpa using h2)]
        exact ih

theorem mem_of_assocFind_eq_some {α : Type} {l : List (String × α)}
    {k : String} {v : α} (h : assocFind l k = some v) : (k, v) ∈ l := by
  induction l with
  | nil => simp [assocFind] at h
  | cons hd tl ih =>
    simp only [assocFind] at h
    by_cases h1 : hd.1 = k
    · rw [if_pos (by simpa using h1)] at h
      have hkv : (k, v) = hd := by
        cases hd
        injection h with h2
        simp_all
      exact List.mem_cons.mpr (Or.inl hkv)
    · rw [if_neg (by simpa using h1)] at h
      exact List.mem_cons_of_mem _ (ih h)

theorem assocFind_eq_of_mem_nodup {α : Type} {l : List (String × α)}
    {p : String × α} (hnd : (l.map Prod.fst).Nodup) (hp : p ∈ l) :
    assocFind l p.1 = some p.2 := by
  induction l with
  | nil => simp at hp
  | cons hd tl ih =>
    simp only [List.map_cons, List.nodup_cons] at hnd
    rcases List.mem_cons.mp hp with h | h
    · subst h
      simp [assocFind]
    · have hne : hd.1 ≠ p.1 := by
        intro he
        exact hnd.1 (he ▸ List.mem_map_of_mem Prod.fst h)
      simp only [assocFind]
      rw [if_neg (by simpa using hne)]
      exact ih hnd.2 h

theorem mem_keys_assocSet {α : Type} {l : List (String × α)}
    {k k' : String} {v : α}
    (h : k' ∈ (assocSet l k v).map Prod.fst) :
    k' ∈ l.map Prod.fst ∨ k' = k := by
  induction l with
  | nil =>
    right
    simpa [assocSet] using h
  | cons hd tl ih =>
    by_cases h1 : hd.1 = k
    · simp only [assocSet] at h
      rw [if_pos (by simpa using h1)] at h
      simp only [List.map_cons, List.mem_cons] at h
      rcases h with h | h
      · right; exact h
      · left; simp [h]
    · simp only [assocSet] at h
      rw [if_neg (by simpa using h1)] at h
      simp only [List.map_cons, List.mem_cons] at h ⊢
      rcases h with h | h
      · left; left; exact h
      · rcases ih h with h2 | h2
        · left; right; exact h2
        · right; exact h2

theorem nodup_keys_assocSet {α : Type} {l : List (String × α)}
    (k : String) (v : α) (hnd : (l.map Prod.fst).Nodup) :
    ((assocSet l k v).map Prod.fst).Nodup := by
  induction l with
  | nil => simp [assocSet]
  | cons hd tl ih =>
    simp only [List.map_cons, List.nodup_cons] at hnd
    by_cases h1 : hd.1 = k
    · simp only [assocSet]
      rw [if_pos (by simpa using h1)]
      simp only [List.map_cons, List.nodup_cons]
      exact ⟨h1 ▸ hnd.1, hnd.2⟩
    · simp only [assocSet]
      rw [if_neg (by simpa using h1)]
      simp only [List.map_cons, List.nodup_cons]
      refine ⟨fun hmem => ?_, ih hnd.2⟩
      rcases mem_keys_assocSet hmem with h2 | h2
      · exact hnd.1 h2
      · exact h1 h2

theorem seqRun_map_ok_append {α : Type} (as : List α)
    (s : List (Except PyErr α)) :
    seqRun (as.map Except.ok ++ s) =
      Except.map (fun l => as ++ l) (seqRun s) := by
  induction as with
  | nil =>
    simp only [List.map_nil, List.nil_append]
    cases seqRun s <;> simp [Except.map]
  | cons a as ih =>
    simp only [List.map_cons, List.cons_append, seqRun, List.append_eq]
    rw [ih]
    cases seqRun s <;> simp [Except.map]

theorem seqRun_seqOfChain {α : Type} (f : DeviceMatch → List α)
    (ch : List (Except PyErr DeviceMatch)) :
    seqRun (seqOfChain f ch) =
      Except.map (fun ms => ms.flatMap f) (seqRun ch) := by
  induction ch with
  | nil => simp [seqOfChain, seqRun, Except.map]
  | cons hd tl ih =>
    cases hd with
    | error e => simp [seqOfChain, seqRun, Except.map]
    | ok m =>
      simp only [seqOfChain, seqRun, seqRun_map_ok_append, ih]
      cases seqRun tl <;> simp [Except.map]

theorem seqRun_eq_ok {α : Type} {ch : List (Except PyErr α)}
    {ms : List α} (h : seqRun ch = .ok ms) : ch = ms.map Except.ok := by
  induction ch generalizing ms with
  | nil =>
    simp only [seqRun] at h
    cases h
    rfl
  | cons hd tl ih =>
    cases hd with
    | error e => simp [seqRun] at h
    | ok a =>
      simp only [seqRun] at h
      cases htl : seqRun tl with
      | error e => rw [htl] at h; cases h
      | ok l =>
        rw [htl] at h
        cases h
        simp [ih htl]

theorem mem_usbYieldsForDriver {devs : DriverDevs} {m m' : DeviceMatch} :
    m' ∈ usbYieldsForDriver devs m ↔ m' = m ∧ devsMatch devs m = true := by
  unfold usbYieldsForDriver devsMatch
  rw [List.mem_filterMap]
  constructor
  · rintro ⟨tv, htv, hcond⟩
    by_cases hc : (m.type == tv.1 && idMem m.id tv.2) = true
    · rw [if_pos hc] at hcond
      cases hcond
      exact ⟨rfl, List.any_eq_true.mpr ⟨tv, htv, hc⟩⟩
    · rw [if_neg hc] at hcond
      cases hcond
  · rintro ⟨rfl, hmatch⟩
    rcases List.any_eq_true.mp hmatch with ⟨tv, htv, hc⟩
    exact ⟨tv, htv, by rw [if_pos hc]⟩

theorem mem_usbPairsFor {reg : Registry} {m m' : DeviceMatch} {d : String} :
    (d, m') ∈ usbPairsFor reg m ↔
      m' = m ∧ ∃ dr ∈ reg, dr.1 = d ∧ devsMatch dr.2 m = true := by
  unfold usbPairsFor devsMatch
  rw [List.mem_flatMap]
  constructor
  · rintro ⟨dr, hdr, hmem⟩
    rcases List.mem_filterMap.mp hmem with ⟨tv, htv, hcond⟩
    by_cases hc : (m.type == tv.1 && idMem m.id tv.2) = true
    · rw [if_pos hc] at hcond
      cases hcond
      exact ⟨rfl, dr, hdr, rfl, List.any_eq_true.mpr ⟨tv, htv, hc⟩⟩
    · rw [if_neg hc] at hcond
      cases hcond
  · rintro ⟨rfl, dr, hdr, hd, hmatch⟩
    rcases List.any_eq_true.mp hmatch with ⟨tv, htv, hc⟩
    exact ⟨dr, hdr, List.mem_filterMap.mpr ⟨tv, htv, by rw [if_pos hc, hd]⟩⟩

theorem mem_merged_of_mem (cur S : List String) (s : String) (hs : s ∈ S) :
    s ∈ cur ++ S.filter (fun i => !cur.contains i) := by
  by_cases hc : cur.contains s
  · exact List.mem_append_left _ (List.elem_iff.mp hc)
  · refine List.mem_append_right _ (List.mem_filter.mpr ⟨hs, ?_⟩)
    simp only [Bool.not_eq_true'] at hc ⊢
    simpa using hc

theorem addUsbDevices_spec (reg : Registry) (d K : String) (S : List String) :
    ∃ devs merged,
      assocFind (addUsbDevices reg d K S) d = some devs ∧
      assocFind devs K = some (.ids merged) ∧
      ∀ s ∈ S, s ∈ merged := by
  unfold addUsbDevices
  exact ⟨_, _, assocFind_assocSet_self _ _ _,
    assocFind_assocSet_self _ _ _, mem_merged_of_mem _ _⟩

theorem nodup_keys_addUsbDevices {reg : Registry} (d K : String)
    (S : List String) (hnd : (reg.map Prod.fst).Nodup) :
    (((addUsbDevices reg d K S).map Prod.fst)).Nodup := by
  unfold addUsbDevices
  exact nodup_keys_assocSet _ _ hnd

/-- C1: for a driver registered (via `addUsbDevices`) with id set `S` under
kind `K`, both `getConnectedUsbDevicesForDriver` and the pair-producing
`getDriversForConnectedUsbDevices` yield every enumerated record of kind
`K` whose id is in `S`, and a record is yielded for that driver only when
its id is in one of the driver's registered id sets for its kind. -/
theorem usbMatchingSoundComplete
    (reg0 : Registry) (d K : String) (S : List String)
    (u h c : List PortInfo) (ms res : List DeviceMatch)
    (prs : List (String × DeviceMatch))
    (hwf : wfRegistry reg0)
    (hch : seqRun (usbChain u h c) = .ok ms)
    (hres : getConnectedUsbDevicesForDriver (addUsbDevices reg0 d K S) d
      u h c = .ok res)
    (hprs : getDriversForConnectedUsbDevices (addUsbDevices reg0 d K S)
      u h c = .ok prs) :
    ∃ devs, assocFind (addUsbDevices reg0 d K S) d = some devs ∧
      ∀ m ∈ ms,
        ((m.type = K ∧ m.id ∈ S) → m ∈ res ∧ (d, m) ∈ prs) ∧
        (m ∈ res → devsMatch devs m = true) ∧
        ((d, m) ∈ prs → devsMatch devs m = true) := by
  obtain ⟨devs, merged, hfind, hK, hmerged⟩ := addUsbDevices_spec reg0 d K S
  have hnd : (((addUsbDevices reg0 d K S).map Prod.fst)).Nodup :=
    nodup_keys_addUsbDevices d K S hwf.1
  -- Evaluate the per-driver query.
  have hres2 : res = ms.flatMap (usbYieldsForDriver devs) := by
    unfold getConnectedUsbDevicesForDriver
      getConnectedUsbDevicesForDriverSeq at hres
    rw [hfind, seqRun_seqOfChain, hch] at hres
    simpa [Except.map] using hres.symm
  -- Evaluate the pair-producing query.
  have hprs2 : prs = ms.flatMap (usbPairsFor (addUsbDevices reg0 d K S)) := by
    unfold getDriversForConnectedUsbDevices
      getDriversForConnectedUsbDevicesSeq at hprs
    rw [seqRun_seqOfChain, hch] at hprs
    simpa [Except.map] using hprs.symm
  refine ⟨devs, hfind, fun m hm => ⟨?_, ?_, ?_⟩⟩
  · rintro ⟨hty, hid⟩
    have hmatch : devsMatch devs m = true := by
      refine List.any_eq_true.mpr ⟨(K, .ids merged),
        mem_of_assocFind_eq_some hK, ?_⟩
      simp only [Bool.and_eq_true, beq_iff_eq]
      exact ⟨hty, by simpa [idMem] using List.elem_iff.mpr (hmerged _ hid)⟩
    constructor
    · rw [hres2, List.mem_flatMap]
      exact ⟨m, hm, mem_usbYieldsForDriver.mpr ⟨rfl, hmatch⟩⟩
    · rw [hprs2, List.mem_flatMap]
      exact ⟨m, hm, mem_usbPairsFor.mpr
        ⟨rfl, (d, devs), mem_of_assocFind_eq_some hfind, rfl, hmatch⟩⟩
  · intro hmem
    rw [hres2, List.mem_flatMap] at hmem
    obtain ⟨m0, _, hy⟩ := hmem
    obtain ⟨rfl, hmatch⟩ := mem_usbYieldsForDriver.mp hy
    exact hmatch
  · intro hmem
    rw [hprs2, List.mem_flatMap] at hmem
    obtain ⟨m0, _, hy⟩ := hmem
    obtain ⟨rfl, dr, hdr, hd1, hmatch⟩ := mem_usbPairsFor.mp hy
    have : assocFind (addUsbDevices reg0 d K S) dr.1 = some dr.2 :=
      assocFind_eq_of_mem_nodup hnd hdr
    rw [hd1, hfind] at this
    injection this with h2
    rwa [← h2] at hmatch

/-- A HID port record used by concrete instances below. -/
def hidPortW : PortInfo := [("usbID", "VID_0904&PID_3001"), ("devicePath", "hidpath")]

/-- The device record the USB chain builds from `hidPortW`. -/
def matchW : DeviceMatch := ⟨KEY_HID, "VID_0904&PID_3001", "hidpath", hidPortW⟩

/-- Witness for C1 at a concrete input: the baum RefreshaBraille 18 HID id
registered into an empty registry, one matching HID port enumerated. -/
theorem usbMatchingSoundComplete_witness :
    wfRegistry ([] : Registry) ∧
    seqRun (usbChain [] [hidPortW] []) = .ok [matchW] ∧
    getConnectedUsbDevicesForDriver
      (addUsbDevices [] "baum" KEY_HID ["VID_0904&PID_3001"]) "baum"
      [] [hidPortW] [] = .ok [matchW] ∧
    getDriversForConnectedUsbDevices
      (addUsbDevices [] "baum" KEY_HID ["VID_0904&PID_3001"])
      [] [hidPortW] [] = .ok [("baum", matchW)] ∧
    (∃ devs,
      assocFind (addUsbDevices [] "baum" KEY_HID ["VID_0904&PID_3001"])
        "baum" = some devs ∧
      ∀ m ∈ [matchW],
        ((m.type = KEY_HID ∧ m.id ∈ ["VID_0904&PID_3001"]) →
          m ∈ [matchW] ∧ ("baum", m) ∈ [("baum", matchW)]) ∧
        (m ∈ [matchW] → devsMatch devs m = true) ∧
        (("baum", m) ∈ [("baum", matchW)] → devsMatch devs m = true)) :=
  ⟨by decide, by rfl, by rfl, by rfl,
    usbMatchingSoundComplete [] "baum" KEY_HID ["VID_0904&PID_3001"]
      [] [hidPortW] [] [matchW] [matchW] [("baum", matchW)]
      (by decide) (by rfl) (by rfl) (by rfl)⟩

/-- C6: every per-driver query entry point fails with the not-found error
(`LookupError` from `_driverDevices[driver]`) when the driver was never
registered, once its result is demanded. -/
theorem unregisteredDriverLookupError
    (reg : Registry) (driver : String) (u h c : List PortInfo)
    (hnone : assocFind reg driver = none) :
    getConnectedUsbDevicesForDriver reg driver u h c =
      .error .lookupError ∧
    (getPossibleBluetoothDevicesForDriver reg driver c).1 =
      .error .lookupError ∧
    (arePossibleDevicesForDriver reg driver u h c).1 =
      .error .lookupError := by
  refine ⟨?_, ?_, ?_⟩
  · unfold getConnectedUsbDevicesForDriver getConnectedUsbDevicesForDriverSeq
    rw [hnone]
    rfl
  · unfold getPossibleBluetoothDevicesForDriver
    rw [hnone]
  · unfold arePossibleDevicesForDriver getConnectedUsbDevicesForDriverSeq
    rw [hnone]
    rfl

/-- Witness for C6: a registry holding only the baum HID registration,
queried for a never-registered driver name. -/
theorem unregisteredDriverLookupError_witness :
    assocFind (addUsbDevices [] "baum" KEY_HID ["VID_0904&PID_3001"])
      "noSuchDriver" = none ∧
    (getConnectedUsbDevicesForDriver
        (addUsbDevices [] "baum" KEY_HID ["VID_0904&PID_3001"])
        "noSuchDriver" [] [hidPortW] [] = .error .lookupError ∧
      (getPossibleBluetoothDevicesForDriver
          (addUsbDevices [] "baum" KEY_HID ["VID_0904&PID_3001"])
          "noSuchDriver" []).1 = .error .lookupError ∧
      (arePossibleDevicesForDriver
          (addUsbDevices [] "baum" KEY_HID ["VID_0904&PID_3001"])
          "noSuchDriver" [] [hidPortW] []).1 = .error .lookupError) :=
  ⟨rfl, unregisteredDriverLookupError _ "noSuchDriver" [] [hidPortW] [] rfl⟩


theorem mkCustomMatch_error {p : PortInfo} {e : PyErr}
    (h : mkCustomMatch p = .error e) : e = .keyError := by
  unfold mkCustomMatch at h
  cases h1 : assocFind p "usbID" with
  | none =>
    rw [show getKey p "usbID" = .error .keyError by simp [getKey, h1]] at h
    injection h with h3
    exact h3.symm
  | some i =>
    rw [show getKey p "usbID" = .ok i by simp [getKey, h1]] at h
    cases h2 : assocFind p "devicePath" with
    | none =>
      rw [show getKey p "devicePath" = .error .keyError by
        simp [getKey, h2]] at h
      injection h with h3
      exact h3.symm
    | some d =>
      rw [show getKey p "devicePath" = .ok d by simp [getKey, h2]] at h
      cases h

theorem mkHidMatch_error {p : PortInfo} {e : PyErr}
    (h : mkHidMatch p = .error e) : e = .keyError := by
  unfold mkHidMatch at h
  cases h1 : assocFind p "usbID" with
  | none =>
    rw [show getKey p "usbID" = .error .keyError by simp [getKey, h1]] at h
    injection h with h3
    exact h3.symm
  | some i =>
    rw [show getKey p "usbID" = .ok i by simp [getKey, h1]] at h
    cases h2 : assocFind p "devicePath" with
    | none =>
      rw [show getKey p "devicePath" = .error .keyError by
        simp [getKey, h2]] at h
      injection h with h3
      exact h3.symm
    | some d =>
      rw [show getKey p "devicePath" = .ok d by simp [getKey, h2]] at h
      cases h

theorem mkSerialMatch_error {p : PortInfo} {e : PyErr}
    (h : mkSerialMatch p = .error e) : e = .keyError := by
  unfold mkSerialMatch at h
  cases h1 : assocFind p "usbID" with
  | none =>
    rw [show getKey p "usbID" = .error .keyError by simp [getKey, h1]] at h
    injection h with h3
    exact h3.symm
  | some i =>
    rw [show getKey p "usbID" = .ok i by simp [getKey, h1]] at h
    cases h2 : assocFind p "port" with
    | none =>
      rw [show getKey p "port" = .error .keyError by simp [getKey, h2]] at h
      injection h with h3
      exact h3.symm
    | some d =>
      rw [show getKey p "port" = .ok d by simp [getKey, h2]] at h
      cases h

theorem mkCustomMatch_ok_usbID {p : PortInfo} {m : DeviceMatch}
    (h : mkCustomMatch p = .ok m) : (assocFind p "usbID").isSome := by
  cases h1 : assocFind p "usbID" with
  | none =>
    unfold mkCustomMatch at h
    rw [show getKey p "usbID" = .error .keyError by simp [getKey, h1]] at h
    cases h
  | some i => rfl

theorem usbChain_error_keyError {u h c : List PortInfo} {e : PyErr}
    (hmem : Except.error e ∈ usbChain u h c) : e = .keyError := by
  unfold usbChain at hmem
  rcases List.mem_append.mp hmem with hm | hm
  · rcases List.mem_append.mp hm with hm2 | hm2
    · obtain ⟨p, _, hp⟩ := List.mem_map.mp hm2
      exact mkCustomMatch_error hp
    · obtain ⟨p, _, hp⟩ := List.mem_map.mp hm2
      exact mkHidMatch_error hp
  · obtain ⟨p, _, hp⟩ := List.mem_map.mp hm
    exact mkSerialMatch_error hp

theorem seqRun_error_mem {α : Type} {s : List (Except PyErr α)} {e : PyErr}
    (h : seqRun s = .error e) : Except.error e ∈ s := by
  induction s with
  | nil => cases h
  | cons hd tl ih =>
    cases hd with
    | error e' =>
      simp only [seqRun] at h
      injection h with h2
      rw [h2]
      exact List.mem_cons_self _ _
    | ok a =>
      simp only [seqRun] at h
      cases htl : seqRun tl with
      | error e'' =>
        rw [htl] at h
        injection h with h2
        rw [h2] at htl
        exact List.mem_cons_of_mem _ (ih htl)
      | ok l => rw [htl] at h; cases h

theorem custom_ports_have_usbID_of_ok {u h c : List PortInfo}
    {ms : List DeviceMatch} (hrun : seqRun (usbChain u h c) = .ok ms) :
    ∀ p ∈ u, (assocFind p "usbID").isSome := by
  intro p hp
  have hch := seqRun_eq_ok hrun
  have hmem : mkCustomMatch p ∈ usbChain u h c := by
    unfold usbChain
    exact List.mem_append_left _
      (List.mem_append_left _ (List.mem_map_of_mem _ hp))
  rw [hch] at hmem
  obtain ⟨m, _, hm⟩ := List.mem_map.mp hmem
  exact mkCustomMatch_ok_usbID hm.symm

/-- C9: the CUSTOM branch of the USB chain reads `port["usbID"]` from every
`listUsbDevices()` record without a presence check, so any enumeration
containing a custom record without a `"usbID"` key makes USB matching fail
with `KeyError`; by contrast the HID and serial branches filter on
`"usbID" in port`, so records lacking the key are silently skipped there. -/
theorem usbCustomKeyErrorUnchecked :
    (∀ (reg : Registry) (u h c : List PortInfo),
      (∃ p ∈ u, assocFind p "usbID" = none) →
      getDriversForConnectedUsbDevices reg u h c = .error .keyError) ∧
    (∀ (reg : Registry) (p q : PortInfo),
      assocFind p "usbID" = none → assocFind q "usbID" = none →
      getDriversForConnectedUsbDevices reg [] [p] [q] = .ok []) := by
  constructor
  · rintro reg u h c ⟨p, hp, hnone⟩
    cases hrun : seqRun (usbChain u h c) with
    | ok ms =>
      have := custom_ports_have_usbID_of_ok hrun p hp
      rw [hnone] at this
      cases this
    | error e =>
      have he : e = .keyError :=
        usbChain_error_keyError (seqRun_error_mem hrun)
      unfold getDriversForConnectedUsbDevices
        getDriversForConnectedUsbDevicesSeq
      rw [seqRun_seqOfChain, hrun, he]
      rfl
  · intro reg p q hp hq
    unfold getDriversForConnectedUsbDevices
      getDriversForConnectedUsbDevicesSeq
    have : usbChain [] [p] [q] = [] := by
      simp [usbChain, hasKey, hp, hq]
    rw [this]
    rfl

/-- Witness for C9: a custom USB record without `"usbID"` raises
`KeyError`; the same record offered as an HID or serial port is skipped. -/
theorem usbCustomKeyErrorUnchecked_witness :
    assocFind ([("devicePath", "x")] : PortInfo) "usbID" = none ∧
    getDriversForConnectedUsbDevices [] [[("devicePath", "x")]] [] [] =
      .error .keyError ∧
    getDriversForConnectedUsbDevices [] [] [[("devicePath", "x")]]
      [[("devicePath", "x")]] = .ok [] :=
  ⟨rfl,
    usbCustomKeyErrorUnchecked.1 [] [[("devicePath", "x")]] [] []
      ⟨[("devicePath", "x")], List.mem_cons_self _ _, rfl⟩,
    usbCustomKeyErrorUnchecked.2 [] [("devicePath", "x")]
      [("devicePath", "x")] rfl rfl⟩

/-- The generator object returned by calling the generator function
`getConnectedUsbDevicesForDriver(driver)`: it captures the argument only. -/
structure UsbDriverGen where
  driver : String
deriving DecidableEq, Repr

/-- The generator object returned by calling the generator function
`getPossibleBluetoothDevicesForDriver(driver)`. -/
structure BtDriverGen where
  driver : String
deriving DecidableEq, Repr

/-- Modelled from CPython generator-function semantics: calling
`getConnectedUsbDevicesForDriver(driver)` allocates a generator bound to
`driver` and executes none of the body — in particular not the
`_driverDevices[driver]` lookup — so the call itself never raises. -/
def getConnectedUsbDevicesForDriverCall (driver : String) :
    Except PyErr UsbDriverGen :=
  .ok ⟨driver⟩

/-- Modelled from CPython generator-function semantics: calling
`getPossibleBluetoothDevicesForDriver(driver)` allocates a generator bound
to `driver` without running the body, so the call itself never raises. -/
def getPossibleBluetoothDevicesForDriverCall (driver : String) :
    Except PyErr BtDriverGen :=
  .ok ⟨driver⟩

/-- Iterating the USB per-driver generator produces its pull sequence; the
registry lookup happens on the first pull. -/
def UsbDriverGen.pulls (g : UsbDriverGen) (reg : Registry)
    (u h c : List PortInfo) : List (Except PyErr DeviceMatch) :=
  getConnectedUsbDevicesForDriverSeq reg g.driver u h c

/-- The first pull (`next`) of the Bluetooth per-driver generator: the body
runs up to the first yield, performing the registry lookup (and its
`defaultdict` side effect) then; returns the first record, exhaustion, or
the raised error, together with the registry after the side effect. -/
def BtDriverGen.firstPull (g : BtDriverGen) (reg : Registry)
    (c : List PortInfo) : Except PyErr (Option DeviceMatch) × Registry :=
  match getPossibleBluetoothDevicesForDriver reg g.driver c with
  | (.error e, reg2) => (.error e, reg2)
  | (.ok l, reg2) => (.ok l.head?, reg2)

/-- C10: both per-driver query functions are generator functions — calling
either with any driver name (registered or not) returns a generator without
raising — and for an unregistered driver the `LookupError` of the registry
lookup surfaces only on the first iteration of the returned generator. -/
theorem perDriverGeneratorsDeferWork (driver : String) (reg : Registry)
    (u h c com : List PortInfo)
    (hnone : assocFind reg driver = none) :
    getConnectedUsbDevicesForDriverCall driver = .ok ⟨driver⟩ ∧
    getPossibleBluetoothDevicesForDriverCall driver = .ok ⟨driver⟩ ∧
    UsbDriverGen.pulls ⟨driver⟩ reg u h c = [.error .lookupError] ∧
    (BtDriverGen.firstPull ⟨driver⟩ reg com).1 = .error .lookupError := by
  refine ⟨rfl, rfl, ?_, ?_⟩
  · unfold UsbDriverGen.pulls getConnectedUsbDevicesForDriverSeq
    rw [hnone]
  · unfold BtDriverGen.firstPull getPossibleBluetoothDevicesForDriver
    rw [hnone]

/-- Witness for C10 at a concrete unregistered driver name. -/
theorem perDriverGeneratorsDeferWork_witness :
    assocFind (addUsbDevices [] "baum" KEY_HID ["VID_0904&PID_3001"])
      "missingDriver" = none ∧
    (getConnectedUsbDevicesForDriverCall "missingDriver" =
        .ok ⟨"missingDriver"⟩ ∧
      getPossibleBluetoothDevicesForDriverCall "missingDriver" =
        .ok ⟨"missingDriver"⟩ ∧
      UsbDriverGen.pulls ⟨"missingDriver"⟩
          (addUsbDevices [] "baum" KEY_HID ["VID_0904&PID_3001"])
          [] [hidPortW] [] = [.error .lookupError] ∧
      (BtDriverGen.firstPull ⟨"missingDriver"⟩
          (addUsbDevices [] "baum" KEY_HID ["VID_0904&PID_3001"]) []).1 =
        .error .lookupError) :=
  ⟨rfl, perDriverGeneratorsDeferWork "missingDriver" _ [] [hidPortW] [] [] rfl⟩

/-- The Bluetooth predicate a driver's dict exposes to the matching loops:
the value stored under `KEY_BLUETOOTH` when it is callable, none otherwise
(absent key, or the empty set a `defaultdict` lookup left behind). -/
def btPredOf (devs : DriverDevs) : Option (DeviceMatch → Bool) :=
  match assocFind devs KEY_BLUETOOTH with
  | some (.fn f) => some f
  | some (.ids _) => none
  | none => none

theorem assocFind_append {α : Type} (l1 l2 : List (String × α)) (k : String) :
    assocFind (l1 ++ l2) k =
      match assocFind l1 k with
      | some v => some v
      | none => assocFind l2 k := by
  induction l1 with
  | nil => simp [assocFind]
  | cons hd tl ih =>
    by_cases h1 : hd.1 = k
    · simp only [List.cons_append, assocFind]
      rw [if_pos (by simpa using h1), if_pos (by simpa using h1)]
    · simp only [List.cons_append, assocFind]
      rw [if_neg (by simpa using h1), if_neg (by simpa using h1)]
      exact ih

theorem btPredOf_ddGet (devs : DriverDevs) :
    btPredOf (ddGet devs KEY_BLUETOOTH).2 = btPredOf devs := by
  unfold ddGet
  cases h1 : assocFind devs KEY_BLUETOOTH with
  | some v => rfl
  | none =>
    simp only
    unfold btPredOf
    rw [assocFind_append, h1]
    simp [assocFind]

theorem ddGet_idem (devs : DriverDevs) (k : String) :
    (ddGet (ddGet devs k).2 k).2 = (ddGet devs k).2 := by
  unfold ddGet
  cases h1 : assocFind devs k with
  | some v => simp [h1]
  | none =>
    simp only
    rw [assocFind_append, h1]
    simp [assocFind]

/-- The registry after one full inner driver loop of the Bluetooth pair
matcher: every driver's dict has been subjected to the `defaultdict`
lookup `devs[KEY_BLUETOOTH]`. -/
def ensureBt (reg : Registry) : Registry :=
  reg.map fun dr => (dr.1, (ddGet dr.2 KEY_BLUETOOTH).2)

/-- The yields of one inner driver loop of the Bluetooth pair matcher for
record `m`: the drivers whose stored Bluetooth value is callable and whose
predicate accepts `m`. -/
def btYields (reg : Registry) (m : DeviceMatch) :
    List (String × DeviceMatch) :=
  reg.filterMap fun dr =>
    match btPredOf dr.2 with
    | some f => if f m then some (dr.1, m) else none
    | none => none

theorem btMatchDrivers_eq (reg : Registry) (m : DeviceMatch) :
    btMatchDrivers reg m = (btYields reg m, ensureBt reg) := by
  induction reg with
  | nil => rfl
  | cons dr rest ih =>
    obtain ⟨driver, devs⟩ := dr
    simp only [btMatchDrivers, ih]
    cases h1 : assocFind devs KEY_BLUETOOTH with
    | some v =>
      cases v with
      | ids s =>
        simp only [ddGet, h1, btYields, List.filterMap_cons, btPredOf,
          ensureBt, List.map_cons]
      | fn f =>
        simp only [ddGet, h1, btYields, List.filterMap_cons, btPredOf,
          ensureBt, List.map_cons]
        by_cases hf : f m
        · simp [hf]
        · simp [hf]
    | none =>
      simp only [ddGet, h1, btYields, List.filterMap_cons, btPredOf,
        ensureBt, List.map_cons]

theorem btYields_ensureBt (reg : Registry) (m : DeviceMatch) :
    btYields (ensureBt reg) m = btYields reg m := by
  unfold btYields ensureBt
  rw [List.filterMap_map]
  apply List.filterMap_congr
  intro dr _
  simp [Function.comp, btPredOf_ddGet]

theorem ensureBt_idem (reg : Registry) :
    ensureBt (ensureBt reg) = ensureBt reg := by
  unfold ensureBt
  rw [List.map_map]
  apply List.map_congr_left
  intro dr _
  simp [Function.comp, ddGet_idem]

theorem btMatchAllGo_fst (bts : List DeviceMatch) (reg : Registry) :
    (btMatchAllGo reg bts).1 = bts.flatMap (fun m => btYields reg m) := by
  induction bts generalizing reg with
  | nil => rfl
  | cons m rest ih =>
    simp only [btMatchAllGo, btMatchDrivers_eq, List.flatMap_cons]
    rw [ih (ensureBt reg)]
    simp only [btYields_ensureBt]

theorem mem_btYields {reg : Registry} {m m' : DeviceMatch} {d : String} :
    (d, m) ∈ btYields reg m' ↔
      m = m' ∧ ∃ dr ∈ reg, dr.1 = d ∧
        ∃ f, btPredOf dr.2 = some f ∧ f m' = true := by
  unfold btYields
  rw [List.mem_filterMap]
  constructor
  · rintro ⟨dr, hdr, hcond⟩
    cases hp : btPredOf dr.2 with
    | none => rw [hp] at hcond; cases hcond
    | some f =>
      rw [hp] at hcond
      dsimp only at hcond
      by_cases hf : f m' = true
      · rw [if_pos hf] at hcond
        injection hcond with h2
        have hd1 : dr.1 = d := congrArg Prod.fst h2
        have hm : m = m' := (congrArg Prod.snd h2).symm
        exact ⟨hm, dr, hdr, hd1, f, hp, hf⟩
      · rw [if_neg hf] at hcond
        cases hcond
  · rintro ⟨rfl, dr, hdr, hd1, f, hp, hf⟩
    refine ⟨dr, hdr, ?_⟩
    rw [hp]
    dsimp only
    rw [if_pos hf, hd1]

/-- C5: Bluetooth matching yields `(d, record)` (pair matcher) resp.
`record` (per-driver matcher) for a Bluetooth-named serial record iff
driver `d` has a callable registered Bluetooth predicate and that
predicate accepts the record; a driver with no registered predicate never
matches any Bluetooth record. -/
theorem btMatchingIffPredicate
    (reg : Registry) (com : List PortInfo) (bts : List DeviceMatch)
    (hnd : (reg.map Prod.fst).Nodup)
    (hbts : listBtMatches com = .ok bts) :
    (∀ out reg2,
      getDriversForPossibleBluetoothDevices reg com = (.ok out, reg2) →
      ∀ d m, (d, m) ∈ out ↔
        m ∈ bts ∧ ∃ devs f, assocFind reg d = some devs ∧
          btPredOf devs = some f ∧ f m = true) ∧
    (∀ driver devs res reg3,
      assocFind reg driver = some devs →
      getPossibleBluetoothDevicesForDriver reg driver com =
        (.ok res, reg3) →
      ∀ m, m ∈ res ↔
        m ∈ bts ∧ ∃ f, btPredOf devs = some f ∧ f m = true) := by
  constructor
  · intro out reg2 hout d m
    have hout2 : out = bts.flatMap (fun m' => btYields reg m') := by
      unfold getDriversForPossibleBluetoothDevices at hout
      rw [hbts] at hout
      have h2 : ((Except.ok (btMatchAllGo reg bts).1 :
            Except PyErr (List (String × DeviceMatch))),
          (btMatchAllGo reg bts).2) = (.ok out, reg2) := hout
      have h3 := congrArg Prod.fst h2
      injection h3 with h4
      rw [← h4, btMatchAllGo_fst]
    subst hout2
    rw [List.mem_flatMap]
    constructor
    · rintro ⟨m', hm', hy⟩
      obtain ⟨rfl, dr, hdr, hd1, f, hp, hf⟩ := mem_btYields.mp hy
      exact ⟨hm', dr.2, f, hd1 ▸ assocFind_eq_of_mem_nodup hnd hdr, hp, hf⟩
    · rintro ⟨hm, devs, f, hfind, hp, hf⟩
      exact ⟨m, hm, mem_btYields.mpr ⟨rfl, (d, devs),
        mem_of_assocFind_eq_some hfind, rfl, f, hp, hf⟩⟩
  · intro driver devs res reg3 hfind hres m
    unfold getPossibleBluetoothDevicesForDriver at hres
    rw [hfind] at hres
    dsimp only at hres
    cases h1 : assocFind devs KEY_BLUETOOTH with
    | some v =>
      have hdg : ddGet devs KEY_BLUETOOTH = (v, devs) := by
        simp [ddGet, h1]
      rw [hdg] at hres
      cases v with
      | ids s =>
        have h2 : ((Except.ok ([] : List DeviceMatch)),
            assocSet reg driver devs) = (.ok res, reg3) := hres
        have h3 := congrArg Prod.fst h2
        injection h3 with h4
        constructor
        · intro hmem
          rw [← h4] at hmem
          cases hmem
        · rintro ⟨-, f, hp, -⟩
          unfold btPredOf at hp
          rw [h1] at hp
          cases hp
      | fn f =>
        rw [hbts] at hres
        have h2 : ((Except.ok (bts.filter f)),
            assocSet reg driver devs) = (.ok res, reg3) := hres
        have h3 := congrArg Prod.fst h2
        injection h3 with h4
        rw [← h4, List.mem_filter]
        constructor
        · rintro ⟨hm, hf⟩
          exact ⟨hm, f, by unfold btPredOf; rw [h1], hf⟩
        · rintro ⟨hm, f', hp, hf⟩
          unfold btPredOf at hp
          rw [h1] at hp
          have h5 : f = f' := by injection hp
          exact ⟨hm, h5 ▸ hf⟩
    | none =>
      have hdg : ddGet devs KEY_BLUETOOTH =
          (.ids [], devs ++ [(KEY_BLUETOOTH, .ids [])]) := by
        simp [ddGet, h1]
      rw [hdg] at hres
      have h2 : ((Except.ok ([] : List DeviceMatch)),
          assocSet reg driver (devs ++ [(KEY_BLUETOOTH, DevValue.ids [])]))
            = (.ok res, reg3) := hres
      have h3 := congrArg Prod.fst h2
      injection h3 with h4
      constructor
      · intro hmem
        rw [← h4] at hmem
        cases hmem
      · rintro ⟨-, f, hp, -⟩
        unfold btPredOf at hp
        rw [h1] at hp
        cases hp

/-- The brailliantB Bluetooth predicate from the module's detection data:
`lambda m: m.id.startswith("Brailliant B") or m.id == "Brailliant 80"`. -/
def brailliantBMatchFn : DeviceMatch → Bool := fun m =>
  m.id.startsWith "Brailliant B" || m.id == "Brailliant 80"

/-- A registry with the superBrl serial registration (no Bluetooth
predicate) and the brailliantB Bluetooth registration, as in the module's
detection data. -/
def regW5 : Registry :=
  addBluetoothDevices
    (addUsbDevices [] "superBrl" KEY_SERIAL ["VID_10C4&PID_EA60"])
    "brailliantB" brailliantBMatchFn

/-- A com port carrying a Bluetooth name. -/
def btPortW : PortInfo := [("bluetoothName", "Brailliant B80"), ("port", "COM4")]

/-- The serial record the Bluetooth matcher builds from `btPortW`. -/
def btRecW : DeviceMatch := ⟨KEY_SERIAL, "Brailliant B80", "COM4", btPortW⟩

/-- Witness for C5: the brailliantB predicate matches the enumerated
`"Brailliant B80"` serial port; superBrl (no predicate) never matches. -/
theorem btMatchingIffPredicate_witness :
    (List.map Prod.fst regW5).Nodup ∧
    listBtMatches [btPortW] = .ok [btRecW] ∧
    ((∀ out reg2,
      getDriversForPossibleBluetoothDevices regW5 [btPortW] =
        (.ok out, reg2) →
      ∀ d m, (d, m) ∈ out ↔
        m ∈ [btRecW] ∧ ∃ devs f, assocFind regW5 d = some devs ∧
          btPredOf devs = some f ∧ f m = true) ∧
    (∀ driver devs res reg3,
      assocFind regW5 driver = some devs →
      getPossibleBluetoothDevicesForDriver regW5 driver [btPortW] =
        (.ok res, reg3) →
      ∀ m, m ∈ res ↔
        m ∈ [btRecW] ∧ ∃ f, btPredOf devs = some f ∧ f m = true)) :=
  ⟨by decide, rfl,
    btMatchingIffPredicate regW5 [btPortW] [btRecW] (by decide) rfl⟩

/-- Whether driver `d`'s dict currently holds a `"bluetooth"` key. -/
def hasBtKeyOf (reg : Registry) (d : String) : Bool :=
  match assocFind reg d with
  | some devs => hasKey devs KEY_BLUETOOTH
  | none => false

/-- Counterexample for C8: the Bluetooth pair matcher is a query operation
that does modify the registry — after running it on a registry whose
superBrl entry has no Bluetooth key (as in the module's own detection
data), that entry has gained an empty-set `"bluetooth"` binding, a side
effect of the `defaultdict` lookup `devs[KEY_BLUETOOTH]`. -/
theorem registryUnchanged_cex :
    (getDriversForPossibleBluetoothDevices regW5 [btPortW]).2 ≠ regW5 :=
  fun h =>
    absurd (congrArg (fun r => hasBtKeyOf r "superBrl") h) (by decide)

/-- The USB id sets and driver names of a registry: every entry with its
`"bluetooth"` binding filtered out. -/
def regNonBtView (reg : Registry) : Registry :=
  reg.map fun dr => (dr.1, dr.2.filter (fun tv => tv.1 != KEY_BLUETOOTH))

/-- The driver names with their registered Bluetooth predicates. -/
def regBtPredView (reg : Registry) :
    List (String × Option (DeviceMatch → Bool)) :=
  reg.map fun dr => (dr.1, btPredOf dr.2)

theorem btMatchAllGo_snd (bts : List DeviceMatch) (reg : Registry) :
    (btMatchAllGo reg bts).2 = reg ∨
      (btMatchAllGo reg bts).2 = ensureBt reg := by
  induction bts generalizing reg with
  | nil => exact Or.inl rfl
  | cons m rest ih =>
    simp only [btMatchAllGo, btMatchDrivers_eq]
    rcases ih (ensureBt reg) with h | h
    · exact Or.inr h
    · exact Or.inr (by rw [h, ensureBt_idem])

theorem filter_nonBt_ddGet (devs : DriverDevs) :
    ((ddGet devs KEY_BLUETOOTH).2).filter (fun tv => tv.1 != KEY_BLUETOOTH) =
      devs.filter (fun tv => tv.1 != KEY_BLUETOOTH) := by
  unfold ddGet
  cases h1 : assocFind devs KEY_BLUETOOTH with
  | some v => rfl
  | none => simp [List.filter_append]

theorem regNonBtView_ensureBt (reg : Registry) :
    regNonBtView (ensureBt reg) = regNonBtView reg := by
  unfold regNonBtView ensureBt
  rw [List.map_map]
  apply List.map_congr_left
  intro dr _
  simp [Function.comp, filter_nonBt_ddGet]

theorem regBtPredView_ensureBt (reg : Registry) :
    regBtPredView (ensureBt reg) = regBtPredView reg := by
  unfold regBtPredView ensureBt
  rw [List.map_map]
  apply List.map_congr_left
  intro dr _
  simp [Function.comp, btPredOf_ddGet]

theorem map_view_assocSet {β : Type} (g : DriverDevs → β) (reg : Registry)
    (driver : String) (devs devs2 : DriverDevs)
    (hfind : assocFind reg driver = some devs) (hg : g devs2 = g devs) :
    (assocSet reg driver devs2).map (fun dr => (dr.1, g dr.2)) =
      reg.map (fun dr => (dr.1, g dr.2)) := by
  induction reg with
  | nil => cases hfind
  | cons hd tl ih =>
    simp only [assocFind] at hfind
    by_cases h1 : hd.1 = driver
    · rw [if_pos (by simpa using h1)] at hfind
      injection hfind with h2
      simp only [assocSet]
      rw [if_pos (by simpa using h1)]
      simp only [List.map_cons]
      congr 1
      rw [h1, hg, h2]
    · rw [if_neg (by simpa using h1)] at hfind
      simp only [assocSet]
      rw [if_neg (by simpa using h1)]
      simp only [List.map_cons]
      congr 1
      exact ih hfind

theorem btDriverQuery_snd_views (reg : Registry) (driver : String)
    (com : List PortInfo) :
    regNonBtView (getPossibleBluetoothDevicesForDriver reg driver com).2 =
      regNonBtView reg ∧
    regBtPredView (getPossibleBluetoothDevicesForDriver reg driver com).2 =
      regBtPredView reg := by
  unfold getPossibleBluetoothDevicesForDriver
  cases hfind : assocFind reg driver with
  | none => exact ⟨rfl, rfl⟩
  | some devs =>
    dsimp only
    have hsnd : ∀ (v : DevValue) (devs2 : DriverDevs),
        ddGet devs KEY_BLUETOOTH = (v, devs2) →
        regNonBtView (assocSet reg driver devs2) = regNonBtView reg ∧
        regBtPredView (assocSet reg driver devs2) = regBtPredView reg := by
      intro v devs2 hdg
      have hfilter : devs2.filter (fun tv => tv.1 != KEY_BLUETOOTH) =
          devs.filter (fun tv => tv.1 != KEY_BLUETOOTH) := by
        rw [show devs2 = (ddGet devs KEY_BLUETOOTH).2 by rw [hdg]]
        exact filter_nonBt_ddGet devs
      have hpred : btPredOf devs2 = btPredOf devs := by
        rw [show devs2 = (ddGet devs KEY_BLUETOOTH).2 by rw [hdg]]
        exact btPredOf_ddGet devs
      exact ⟨map_view_assocSet _ reg driver devs devs2 hfind hfilter,
        map_view_assocSet _ reg driver devs devs2 hfind hpred⟩
    cases hdg : ddGet devs KEY_BLUETOOTH with
    | mk v devs2 =>
      dsimp only
      cases v with
      | ids s => exact hsnd _ _ hdg
      | fn f =>
        cases hbm : listBtMatches com with
        | error e => exact hsnd _ _ hdg
        | ok btDevs => exact hsnd _ _ hdg

/-- C8 (amended): the USB matching functions are pure in the registry, and
while the Bluetooth query paths can insert an empty placeholder set under a
driver's `"bluetooth"` key (the `defaultdict` side effect exhibited by the
counterexample), no scan or query operation changes the driver names, the
registered USB id sets, or the registered Bluetooth predicates. -/
theorem registryViewsPreserved (reg : Registry) (driver : String)
    (u h c com : List PortInfo) :
    regNonBtView (getDriversForPossibleBluetoothDevices reg com).2 =
      regNonBtView reg ∧
    regBtPredView (getDriversForPossibleBluetoothDevices reg com).2 =
      regBtPredView reg ∧
    regNonBtView (getPossibleBluetoothDevicesForDriver reg driver com).2 =
      regNonBtView reg ∧
    regBtPredView (getPossibleBluetoothDevicesForDriver reg driver com).2 =
      regBtPredView reg ∧
    regNonBtView (arePossibleDevicesForDriver reg driver u h c).2 =
      regNonBtView reg ∧
    regBtPredView (arePossibleDevicesForDriver reg driver u h c).2 =
      regBtPredView reg := by
  have hpair :
      regNonBtView (getDriversForPossibleBluetoothDevices reg com).2 =
        regNonBtView reg ∧
      regBtPredView (getDriversForPossibleBluetoothDevices reg com).2 =
        regBtPredView reg := by
    unfold getDriversForPossibleBluetoothDevices
    cases hbm : listBtMatches com with
    | error e => exact ⟨rfl, rfl⟩
    | ok bts =>
      dsimp only
      have hsnd :
          ((btMatchAllGo reg bts).1,
            (btMatchAllGo reg bts).2).2 = (btMatchAllGo reg bts).2 := rfl
      rcases btMatchAllGo_snd bts reg with h2 | h2
      · rw [h2]
        exact ⟨rfl, rfl⟩
      · rw [h2]
        exact ⟨regNonBtView_ensureBt reg, regBtPredView_ensureBt reg⟩
  have hdrv := btDriverQuery_snd_views reg driver com
  have hdrvc := btDriverQuery_snd_views reg driver c
  have hare :
      regNonBtView (arePossibleDevicesForDriver reg driver u h c).2 =
        regNonBtView reg ∧
      regBtPredView (arePossibleDevicesForDriver reg driver u h c).2 =
        regBtPredView reg := by
    unfold arePossibleDevicesForDriver
    cases hsf : seqFirst (getConnectedUsbDevicesForDriverSeq reg driver u h c) with
    | error e => exact ⟨rfl, rfl⟩
    | ok o =>
      cases o with
      | some m => exact ⟨rfl, rfl⟩
      | none =>
        dsimp only
        cases hbt : getPossibleBluetoothDevicesForDriver reg driver c with
        | mk r1 r2 =>
          have hr2 : r2 = (getPossibleBluetoothDevicesForDriver reg driver c).2 := by
            rw [hbt]
          cases r1 with
          | error e =>
            dsimp only
            rw [hr2]
            exact hdrvc
          | ok l =>
            dsimp only
            rw [hr2]
            exact hdrvc
  exact ⟨hpair.1, hpair.2, hdrv.1, hdrv.2, hare.1, hare.2⟩

theorem bgScanBt_usbSucceeded_false (reg : Registry) (comP : List PortInfo)
    (btFlag : Bool) (btComs0 : Option (List (String × DeviceMatch)))
    (activate : String → DeviceMatch → Bool) (stopAt : Nat → Bool)
    (k : Nat) (usbAtts : List (String × DeviceMatch)) :
    (bgScanBt reg comP btFlag btComs0 activate stopAt k usbAtts).usbSucceeded
      = false := by
  unfold bgScanBt
  repeat' split
  all_goals rfl

theorem bgScanBt_timer_iff (reg : Registry) (comP : List PortInfo)
    (btFlag : Bool) (btComs0 : Option (List (String × DeviceMatch)))
    (activate : String → DeviceMatch → Bool) (stopAt : Nat → Bool)
    (k : Nat) (usbAtts : List (String × DeviceMatch)) :
    (bgScanBt reg comP btFlag btComs0 activate stopAt k usbAtts).timerArmed
        = true ↔
      ((bgScanBt reg comP btFlag btComs0 activate stopAt k
          usbAtts).btCompleted = true ∧
        (bgScanBt reg comP btFlag btComs0 activate stopAt k
          usbAtts).btComs.getD [] ≠ []) := by
  unfold bgScanBt
  repeat' split
  all_goals simp

theorem bgScanBt_cached (reg : Registry) (comP : List PortInfo)
    (btFlag : Bool) (l : List (String × DeviceMatch))
    (activate : String → DeviceMatch → Bool) (stopAt : Nat → Bool)
    (k : Nat) (usbAtts : List (String × DeviceMatch)) :
    (bgScanBt reg comP btFlag (some l) activate stopAt k
        usbAtts).btEnumerated = false ∧
    (bgScanBt reg comP btFlag (some l) activate stopAt k
        usbAtts).btComs = some l := by
  unfold bgScanBt
  repeat' split
  all_goals simp_all

theorem bgScanBt_fresh (reg : Registry) (comP : List PortInfo)
    (btFlag : Bool)
    (activate : String → DeviceMatch → Bool) (stopAt : Nat → Bool)
    (k : Nat) (usbAtts : List (String × DeviceMatch)) :
    ((bgScanBt reg comP btFlag none activate stopAt k usbAtts).btCompleted
        = true →
      (bgScanBt reg comP btFlag none activate stopAt k usbAtts).btComs =
        some (bgScanBt reg comP btFlag none activate stopAt k
          usbAtts).btAttempts ∧
      (bgScanBt reg comP btFlag none activate stopAt k
        usbAtts).btEnumerated = true) ∧
    ((bgScanBt reg comP btFlag none activate stopAt k usbAtts).btCompleted
        = false →
      (bgScanBt reg comP btFlag none activate stopAt k usbAtts).btComs =
        none) := by
  unfold bgScanBt
  repeat' split
  all_goals simp_all

theorem usbLoop_succeeded {activate : String → DeviceMatch → Bool}
    {stopAt : Nat → Bool} :
    ∀ (seq : List (Except PyErr (String × DeviceMatch))) (k : Nat)
      {as : List (String × DeviceMatch)} {k' : Nat},
      usbLoop activate stopAt k seq = (as, k', .succeeded) →
      ∃ as0 p, as = as0 ++ [p] ∧ activate p.1 p.2 = true ∧
        ∀ q ∈ as0, activate q.1 q.2 = false := by
  intro seq
  induction seq with
  | nil =>
    intro k as k' h
    simp [usbLoop] at h
  | cons hd tl ih =>
    intro k as k' h
    cases hd with
    | error e => simp [usbLoop] at h
    | ok cand =>
      simp only [usbLoop] at h
      by_cases hs : stopAt k = true
      · rw [if_pos hs] at h
        simp at h
      · rw [if_neg hs] at h
        by_cases ha : activate cand.1 cand.2 = true
        · rw [if_pos ha] at h
          simp only [Prod.mk.injEq] at h
          exact ⟨[], cand, by simp [h.1.symm], ha, by simp⟩
        · rw [if_neg ha] at h
          cases hrec : usbLoop activate stopAt (k + 1) tl with
          | mk as1 rest1 =>
            cases rest1 with
            | mk k1 ex1 =>
              rw [hrec] at h
              dsimp only at h
              simp only [Prod.mk.injEq] at h
              obtain ⟨h1, h2, h3⟩ := h
              rw [h3] at hrec
              obtain ⟨as0, p, heq, hp, hall⟩ := ih (k + 1) hrec
              refine ⟨cand :: as0, p, ?_, hp, ?_⟩
              · rw [← h1, heq]
                rfl
              · intro q hq
                rcases List.mem_cons.mp hq with rfl | hq2
                · simpa using ha
                · exact hall q hq2

/-- C7: when a `setDisplayByName` call on a USB candidate returns true,
`_bgScan` returns at once: the successful attempt is the last one made,
no Bluetooth enumeration or Bluetooth attempt happens, no timer is armed,
and the cache is untouched. -/
theorem usbSuccessEndsPass (reg : Registry) (u h c : List PortInfo)
    (usbFlag btFlag : Bool)
    (btComs0 : Option (List (String × DeviceMatch)))
    (activate : String → DeviceMatch → Bool) (stopAt : Nat → Bool)
    (hsucc : (bgScan reg u h c usbFlag btFlag btComs0 activate
      stopAt).usbSucceeded = true) :
    (bgScan reg u h c usbFlag btFlag btComs0 activate
        stopAt).btEnumerated = false ∧
    (bgScan reg u h c usbFlag btFlag btComs0 activate
        stopAt).btAttempts = [] ∧
    (bgScan reg u h c usbFlag btFlag btComs0 activate
        stopAt).timerArmed = false ∧
    (bgScan reg u h c usbFlag btFlag btComs0 activate
        stopAt).btComs = btComs0 ∧
    (bgScan reg u h c usbFlag btFlag btComs0 activate
        stopAt).raised = none ∧
    ∃ as0 p,
      (bgScan reg u h c usbFlag btFlag btComs0 activate
        stopAt).usbAttempts = as0 ++ [p] ∧
      activate p.1 p.2 = true ∧ ∀ q ∈ as0, activate q.1 q.2 = false := by
  unfold bgScan at hsucc ⊢
  dsimp only at hsucc ⊢
  by_cases husb : usbFlag = true
  · rw [if_pos husb] at hsucc ⊢
    by_cases h0 : stopAt 0 = true
    · rw [if_pos h0] at hsucc
      simp at hsucc
    · rw [if_neg h0] at hsucc ⊢
      cases hloop : usbLoop activate stopAt 1
          (getDriversForConnectedUsbDevicesSeq reg u h c) with
      | mk as rest =>
        cases rest with
        | mk k1 ex =>
          rw [hloop] at hsucc
          dsimp only at hsucc ⊢
          cases ex with
          | stopped => simp at hsucc
          | raised e => simp at hsucc
          | exhausted =>
            rw [bgScanBt_usbSucceeded_false] at hsucc
            cases hsucc
          | succeeded =>
            dsimp only
            refine ⟨rfl, rfl, rfl, rfl, rfl, ?_⟩
            exact usbLoop_succeeded _ 1 hloop
  · rw [if_neg husb] at hsucc
    rw [bgScanBt_usbSucceeded_false] at hsucc
    cases hsucc

/-- A registry with one driver whose Bluetooth predicate accepts every
record. -/
def alwaysPredFn : DeviceMatch → Bool := fun _ => true

/-- Concrete registry used by the scan-pass counterexamples. -/
def regWD : Registry := addBluetoothDevices [] "btDriver" alwaysPredFn

/-- First Bluetooth-named com port of the counterexample runs. -/
def btPortD1 : PortInfo := [("bluetoothName", "Dev1"), ("port", "COM1")]

/-- Second Bluetooth-named com port of the counterexample runs. -/
def btPortD2 : PortInfo := [("bluetoothName", "Dev2"), ("port", "COM2")]

/-- An activator that claims every candidate. -/
def actTrue : String → DeviceMatch → Bool := fun _ _ => true

/-- An activator that claims no candidate. -/
def actFalse : String → DeviceMatch → Bool := fun _ _ => false

/-- A stop event that is never set. -/
def stopNever : Nat → Bool := fun _ => false

/-- A stop event observed set from the third `isSet()` call on. -/
def stopFrom2 : Nat → Bool := fun k => decide (2 ≤ k)

/-- Counterexample for C2: in a Bluetooth-only pass with one candidate that
activates successfully, the loop exits via `break`, after which `_bgScan`
still saves the cache and arms the poll timer (`if btComsCache:`), so the
timer is armed even though an activation attempt succeeded. -/
theorem timerArmedDespiteSuccess_cex :
    (bgScan regWD [] [] [btPortD1] false true none actTrue
        stopNever).btSucceeded = true ∧
    (bgScan regWD [] [] [btPortD1] false true none actTrue
        stopNever).timerArmed = true := by
  constructor <;> rfl

/-- C2 (amended): the poll timer is armed iff the pass runs the Bluetooth
branch to completion (no cancellation return, no USB-section return) and
the cache list at the end of the pass is non-empty — irrespective of
whether a Bluetooth activation succeeded.  In particular, with no
candidates the pass ends with no timer, and a USB success arms no timer,
but a Bluetooth success still arms one. -/
theorem timerArmedIffCompletedNonEmpty (reg : Registry)
    (u h c : List PortInfo) (usbFlag btFlag : Bool)
    (btComs0 : Option (List (String × DeviceMatch)))
    (activate : String → DeviceMatch → Bool) (stopAt : Nat → Bool) :
    (bgScan reg u h c usbFlag btFlag btComs0 activate stopAt).timerArmed
        = true ↔
      ((bgScan reg u h c usbFlag btFlag btComs0 activate
          stopAt).btCompleted = true ∧
        (bgScan reg u h c usbFlag btFlag btComs0 activate
          stopAt).btComs.getD [] ≠ []) := by
  unfold bgScan
  dsimp only
  by_cases husb : usbFlag = true
  · rw [if_pos husb]
    by_cases h0 : stopAt 0 = true
    · rw [if_pos h0]
      simp
    · rw [if_neg h0]
      cases hloop : usbLoop activate stopAt 1
          (getDriversForConnectedUsbDevicesSeq reg u h c) with
      | mk as rest =>
        cases rest with
        | mk k1 ex =>
          cases ex with
          | stopped => simp
          | raised e => simp
          | succeeded => simp
          | exhausted =>
            dsimp only
            exact bgScanBt_timer_iff reg c btFlag btComs0 activate stopAt k1 as
  · rw [if_neg husb]
    exact bgScanBt_timer_iff reg c btFlag btComs0 activate stopAt 0 []

/-- Counterexample for C3: a fresh Bluetooth sub-pass that discovers and
attempts a candidate but observes cancellation at the next loop check
returns before `self._btComs = btComsCache` runs, so the candidate already
found is NOT preserved in the Detector's cache: `_btComs` is still in the
not-yet-computed state afterwards. -/
theorem btCacheLostOnCancellation_cex :
    (bgScan regWD [] [] [btPortD1, btPortD2] false true none actFalse
        stopFrom2).btAttempts ≠ [] ∧
    (bgScan regWD [] [] [btPortD1, btPortD2] false true none actFalse
        stopFrom2).btComs = none := by
  constructor
  · decide
  · rfl

theorem bgScanFreshCachePersistence (reg : Registry)
    (u h c : List PortInfo) (usbFlag btFlag : Bool)
    (activate : String → DeviceMatch → Bool) (stopAt : Nat → Bool) :
    ((bgScan reg u h c usbFlag btFlag none activate stopAt).btCompleted
        = true →
      (bgScan reg u h c usbFlag btFlag none activate stopAt).btComs =
        some (bgScan reg u h c usbFlag btFlag none activate
          stopAt).btAttempts ∧
      (bgScan reg u h c usbFlag btFlag none activate
        stopAt).btEnumerated = true) ∧
    ((bgScan reg u h c usbFlag btFlag none activate stopAt).btCompleted
        = false →
      (bgScan reg u h c usbFlag btFlag none activate stopAt).btComs =
        none) := by
  unfold bgScan
  dsimp only
  by_cases husb : usbFlag = true
  · rw [if_pos husb]
    by_cases h0 : stopAt 0 = true
    · rw [if_pos h0]
      exact ⟨fun hc => by simp at hc, fun _ => rfl⟩
    · rw [if_neg h0]
      cases hloop : usbLoop activate stopAt 1
          (getDriversForConnectedUsbDevicesSeq reg u h c) with
      | mk as rest =>
        cases rest with
        | mk k1 ex =>
          cases ex with
          | stopped =>
            dsimp only
            exact ⟨fun hc => by simp at hc, fun _ => rfl⟩
          | raised e =>
            dsimp only
            exact ⟨fun hc => by simp at hc, fun _ => rfl⟩
          | succeeded =>
            dsimp only
            exact ⟨fun hc => by simp at hc, fun _ => rfl⟩
          | exhausted =>
            dsimp only
            exact bgScanBt_fresh reg c btFlag activate stopAt k1 as
  · rw [if_neg husb]
    exact bgScanBt_fresh reg c btFlag activate stopAt 0 []

/-- C3 (amended): in the fresh Bluetooth sub-pass (cache not yet computed),
candidates are accumulated incrementally in the local `btComsCache` list
(exactly the attempted candidates), but the Detector's cache `_btComs` is
assigned only when the Bluetooth branch runs to completion; if the pass
returns early — in particular when cancellation is observed partway through
the candidate loop — `_btComs` stays in the not-yet-computed state and the
partial results are lost. -/
theorem freshBtCacheSavedOnlyOnCompletion (reg : Registry)
    (u h c : List PortInfo) (usbFlag btFlag : Bool)
    (activate : String → DeviceMatch → Bool) (stopAt : Nat → Bool) :
    ((bgScan reg u h c usbFlag btFlag none activate stopAt).btCompleted
        = true →
      (bgScan reg u h c usbFlag btFlag none activate stopAt).btComs =
        some (bgScan reg u h c usbFlag btFlag none activate
          stopAt).btAttempts ∧
      (bgScan reg u h c usbFlag btFlag none activate
        stopAt).btEnumerated = true) ∧
    ((bgScan reg u h c usbFlag btFlag none activate stopAt).btCompleted
        = false →
      (bgScan reg u h c usbFlag btFlag none activate stopAt).btComs =
        none) :=
  bgScanFreshCachePersistence reg u h c usbFlag btFlag activate stopAt

/-- Witness for C3 (amended) at a completing fresh pass. -/
theorem freshBtCacheSavedOnlyOnCompletion_witness :
    (bgScan regWD [] [] [btPortD1] false true none actTrue
        stopNever).btCompleted = true ∧
    ((bgScan regWD [] [] [btPortD1] false true none actTrue
        stopNever).btComs =
      some (bgScan regWD [] [] [btPortD1] false true none actTrue
        stopNever).btAttempts ∧
    (bgScan regWD [] [] [btPortD1] false true none actTrue
        stopNever).btEnumerated = true) :=
  ⟨by decide,
    (freshBtCacheSavedOnlyOnCompletion regWD [] [] [btPortD1] false true
      actTrue stopNever).1 (by decide)⟩

/-- The single cached candidate of the C4 witness run. -/
def candD1 : String × DeviceMatch :=
  ("btDriver", ⟨KEY_SERIAL, "Dev1", "COM1", btPortD1⟩)

/-- C4: a pass entered with a populated cache (`_btComs` not `None`) never
calls the Bluetooth enumeration and leaves the cache exactly as it was;
`rescan()` resets the cache to the not-yet-computed state (and requests
both channels), and a subsequent fresh pass that completes its Bluetooth
branch has re-enumerated. -/
theorem btCacheReuseOnlyRescanResets (reg : Registry)
    (u h c : List PortInfo) (usbFlag btFlag : Bool)
    (l : List (String × DeviceMatch))
    (activate : String → DeviceMatch → Bool) (stopAt : Nat → Bool) :
    (bgScan reg u h c usbFlag btFlag (some l) activate
        stopAt).btEnumerated = false ∧
    (bgScan reg u h c usbFlag btFlag (some l) activate stopAt).btComs =
      some l ∧
    (∀ d : DetectorSt, (DetectorSt.rescan d).btComs = none ∧
      (DetectorSt.rescan d).detectUsb = true ∧
      (DetectorSt.rescan d).detectBluetooth = true) ∧
    ((bgScan reg u h c usbFlag btFlag none activate stopAt).btCompleted
        = true →
      (bgScan reg u h c usbFlag btFlag none activate
        stopAt).btEnumerated = true) := by
  have hsome :
      (bgScan reg u h c usbFlag btFlag (some l) activate
          stopAt).btEnumerated = false ∧
      (bgScan reg u h c usbFlag btFlag (some l) activate stopAt).btComs =
        some l := by
    unfold bgScan
    dsimp only
    by_cases husb : usbFlag = true
    · rw [if_pos husb]
      by_cases h0 : stopAt 0 = true
      · rw [if_pos h0]
        exact ⟨rfl, rfl⟩
      · rw [if_neg h0]
        cases hloop : usbLoop activate stopAt 1
            (getDriversForConnectedUsbDevicesSeq reg u h c) with
        | mk as rest =>
          cases rest with
          | mk k1 ex =>
            cases ex with
            | stopped => exact ⟨rfl, rfl⟩
            | raised e => exact ⟨rfl, rfl⟩
            | succeeded => exact ⟨rfl, rfl⟩
            | exhausted =>
              dsimp only
              exact bgScanBt_cached reg c btFlag l activate stopAt k1 as
    · rw [if_neg husb]
      exact bgScanBt_cached reg c btFlag l activate stopAt 0 []
  refine ⟨hsome.1, hsome.2, fun d => ⟨rfl, rfl, rfl⟩, fun hc => ?_⟩
  exact ((bgScanFreshCachePersistence reg u h c usbFlag btFlag
    activate stopAt).1 hc).2

/-- Witness for C4: a cached pass over one candidate reuses the cache
without enumerating, and a completing fresh pass enumerates. -/
theorem btCacheReuseOnlyRescanResets_witness :
    (bgScan regWD [] [] [btPortD1] false true none actFalse
        stopNever).btCompleted = true ∧
    ((bgScan regWD [] [] [btPortD1] false true (some [candD1]) actFalse
        stopNever).btEnumerated = false ∧
      (bgScan regWD [] [] [btPortD1] false true (some [candD1]) actFalse
        stopNever).btComs = some [candD1] ∧
      (bgScan regWD [] [] [btPortD1] false true none actFalse
        stopNever).btEnumerated = true) :=
  ⟨by decide,
    (btCacheReuseOnlyRescanResets regWD [] [] [btPortD1] false true
      [candD1] actFalse stopNever).1,
    (btCacheReuseOnlyRescanResets regWD [] [] [btPortD1] false true
      [candD1] actFalse stopNever).2.1,
    (btCacheReuseOnlyRescanResets regWD [] [] [btPortD1] false true
      [candD1] actFalse stopNever).2.2.2 (by decide)⟩

/-- Witness for C7: a pass whose first USB candidate activates
successfully ends at once with no Bluetooth work. -/
theorem usbSuccessEndsPass_witness :
    (bgScan (addUsbDevices [] "baum" KEY_HID ["VID_0904&PID_3001"])
        [] [hidPortW] [] true true none actTrue stopNever).usbSucceeded
      = true ∧
    ((bgScan (addUsbDevices [] "baum" KEY_HID ["VID_0904&PID_3001"])
        [] [hidPortW] [] true true none actTrue
        stopNever).btEnumerated = false ∧
      (bgScan (addUsbDevices [] "baum" KEY_HID ["VID_0904&PID_3001"])
        [] [hidPortW] [] true true none actTrue stopNever).btAttempts = [] ∧
      (bgScan (addUsbDevices [] "baum" KEY_HID ["VID_0904&PID_3001"])
        [] [hidPortW] [] true true none actTrue stopNever).timerArmed
        = false ∧
      (bgScan (addUsbDevices [] "baum" KEY_HID ["VID_0904&PID_3001"])
        [] [hidPortW] [] true true none actTrue stopNever).btComs = none ∧
      (bgScan (addUsbDevices [] "baum" KEY_HID ["VID_0904&PID_3001"])
        [] [hidPortW] [] true true none actTrue stopNever).raised = none ∧
      ∃ as0 p,
        (bgScan (addUsbDevices [] "baum" KEY_HID ["VID_0904&PID_3001"])
          [] [hidPortW] [] true true none actTrue stopNever).usbAttempts
          = as0 ++ [p] ∧
        actTrue p.1 p.2 = true ∧ ∀ q ∈ as0, actTrue q.1 q.2 = false) :=
  ⟨by decide,
    usbSuccessEndsPass (addUsbDevices [] "baum" KEY_HID ["VID_0904&PID_3001"])
      [] [hidPortW] [] true true none actTrue stopNever (by decide)⟩
